import Mathlib

/-
Formal model of the client error-telemetry pipeline of the YoklamaSistemi
repository: the browser-side error reporter (src/static/client-logger.js)
and the server-side rate limiter and redactor described by the observability
specification.  JavaScript values are embedded as the inductive type JSVal;
fallible JavaScript operations (property access on null/undefined,
JSON.stringify on BigInt) run in the Except monad; machine effects of the
transport are recorded in an explicit World state.
-/

/-! ## JavaScript value model (client side) -/

/-- Dynamically typed JavaScript values as seen by client-logger.js.
`bigint` is included because JSON.stringify raises a TypeError on BigInt,
giving genuinely unserializable payloads. -/
inductive JSVal where
  | undefined
  | null
  | bool (b : Bool)
  | num (n : Int)
  | str (s : String)
  | bigint (n : Int)
  | arr (elems : List JSVal)
  | obj (fields : List (String × JSVal))

/-- JavaScript truthiness: undefined, null, false, 0, 0n and "" are falsy;
every other value (including any object or array) is truthy. -/
def truthy : JSVal → Bool
  | JSVal.undefined => false
  | JSVal.null => false
  | JSVal.bool b => b
  | JSVal.num n => n != 0
  | JSVal.str s => s != ""
  | JSVal.bigint n => n != 0
  | JSVal.arr _ => true
  | JSVal.obj _ => true

/-- Whether a value is a JavaScript string (the `typeof v === "string"` test). -/
def isString : JSVal → Bool
  | JSVal.str _ => true
  | _ => false

/-- Pure property read: own property of an object literal, undefined for a
missing key and for every non-object (primitives have no own data
properties in this model). -/
def getProp (v : JSVal) (k : String) : JSVal :=
  match v with
  | JSVal.obj fs =>
      match fs.lookup k with
      | some w => w
      | none => JSVal.undefined
  | _ => JSVal.undefined

/-- Property access as executed: reading a property of null or undefined
throws a TypeError; every other access yields `getProp`. -/
def getFieldE (v : JSVal) (k : String) : Except String JSVal :=
  match v with
  | JSVal.undefined => Except.error "TypeError"
  | JSVal.null => Except.error "TypeError"
  | _ => Except.ok (getProp v k)

/-- The JavaScript `a || b` operator. -/
def jsOr (a b : JSVal) : JSVal :=
  if truthy a then a else b

/-- The JavaScript `a && b` operator (value form, both sides pure). -/
def jsAnd (a b : JSVal) : JSVal :=
  if truthy a then b else a

/-- The JavaScript `a && e` operator where evaluating `e` may throw:
`e` is only evaluated when `a` is truthy. -/
def jsAndE (a : JSVal) (e : Except String JSVal) : Except String JSVal :=
  if truthy a then e else Except.ok a

mutual
/-- The JavaScript `String(v)` conversion for the values of this model. -/
def jsToString : JSVal → String
  | JSVal.undefined => "undefined"
  | JSVal.null => "null"
  | JSVal.bool true => "true"
  | JSVal.bool false => "false"
  | JSVal.num n => toString n
  | JSVal.bigint n => toString n
  | JSVal.str s => s
  | JSVal.obj _ => "[object Object]"
  | JSVal.arr xs => jsJoin xs
/-- Array-to-string: elements joined by commas, null/undefined rendered empty. -/
def jsJoin : List JSVal → String
  | [] => ""
  | v :: vs =>
      (match v with
        | JSVal.undefined => ""
        | JSVal.null => ""
        | w => jsToString w)
      ++ (if vs.isEmpty then "" else ",") ++ jsJoin vs
end

mutual
/-- Whether a BigInt value occurs anywhere in the tree: exactly the condition
under which JSON.stringify throws in this model. -/
def hasBigInt : JSVal → Bool
  | JSVal.bigint _ => true
  | JSVal.arr xs => hasBigIntList xs
  | JSVal.obj fs => hasBigIntFields fs
  | _ => false
def hasBigIntList : List JSVal → Bool
  | [] => false
  | v :: vs => hasBigInt v || hasBigIntList vs
def hasBigIntFields : List (String × JSVal) → Bool
  | [] => false
  | (_, v) :: fs => hasBigInt v || hasBigIntFields fs
end

/-- Joins rendered JSON fragments with commas. -/
def joinComma : List String → String
  | [] => ""
  | [x] => x
  | x :: xs => x ++ "," ++ joinComma xs

mutual
/-- JSON text of a value (string escaping elided; undefined rendered as null
at non-object positions, as JSON.stringify does inside arrays). -/
def jsonStr : JSVal → String
  | JSVal.undefined => "null"
  | JSVal.null => "null"
  | JSVal.bool true => "true"
  | JSVal.bool false => "false"
  | JSVal.num n => toString n
  | JSVal.bigint n => toString n
  | JSVal.str s => "\"" ++ s ++ "\""
  | JSVal.arr xs => "[" ++ joinComma (jsonList xs) ++ "]"
  | JSVal.obj fs => "\x7b" ++ joinComma (jsonFields fs) ++ "\x7d"
def jsonList : List JSVal → List String
  | [] => []
  | v :: vs => jsonStr v :: jsonList vs
/-- Object fields with undefined-valued properties omitted, as
JSON.stringify does. -/
def jsonFields : List (String × JSVal) → List String
  | [] => []
  | (_, JSVal.undefined) :: fs => jsonFields fs
  | (k, v) :: fs => ("\"" ++ k ++ "\":" ++ jsonStr v) :: jsonFields fs
end

/-- JSON.stringify: throws a TypeError when a BigInt is reached, otherwise
returns the JSON text. -/
def stringify (v : JSVal) : Except String String :=
  if hasBigInt v then Except.error "TypeError: cannot serialize a BigInt"
  else Except.ok (jsonStr v)

/-! ## client-logger.js: truncate -/

/-- `const MAX_MESSAGE_LENGTH = 500` of client-logger.js. -/
def MAX_MESSAGE_LENGTH : Nat := 500

/-- The truncation marker appended by truncate: a single horizontal-ellipsis
character. -/
def truncationMarker : String := "…"

/-- `s.slice(0, n)` for a nonnegative bound. -/
def jsSlice (s : String) (n : Nat) : String :=
  String.mk (s.data.take n)

/-- The truncate function of client-logger.js lines 6 to 11: non-strings are
returned unchanged; strings longer than MAX_MESSAGE_LENGTH are cut to the
first MAX_MESSAGE_LENGTH characters with the marker appended. -/
def truncate : JSVal → JSVal
  | JSVal.str s =>
      if MAX_MESSAGE_LENGTH < s.length
      then JSVal.str (jsSlice s MAX_MESSAGE_LENGTH ++ truncationMarker)
      else JSVal.str s
  | v => v

/-- Number of occurrences of the (single-character) truncation marker in a
string. -/
def markerCount (s : String) : Nat :=
  s.data.count '…'

/-! ## client-logger.js: transport -/

/-- One observable network delivery attempt. -/
inductive Attempt where
  | beacon (url : String) (body : String)
  | fetchCall (url : String) (body : String) (keepalive : Bool) (rejectionHandled : Bool)

/-- The ambient browser state the client logger can see or affect: the three
values it reads (location.href, navigator.userAgent, the clock's ISO
serialization), the presence of navigator.sendBeacon, the log of network
calls issued so far, and a stand-in for the page's DOM content. -/
structure World where
  href : String
  userAgent : String
  nowIso : String
  hasSendBeacon : Bool
  networkLog : List Attempt
  domText : List String

/-- `const ENDPOINT = '/client-logs'` of client-logger.js. -/
def ENDPOINT : String := "/client-logs"

/-- Body of the try block of send (client-logger.js lines 13 to 30):
serialize the payload, then deliver once via sendBeacon when available,
else via one fetch call with keepalive set and its rejection caught. -/
def sendBody (w : World) (payload : JSVal) : Except String World := do
  let body ← stringify payload
  if w.hasSendBeacon then
    pure { w with networkLog := w.networkLog ++ [Attempt.beacon ENDPOINT body] }
  else
    pure { w with networkLog := w.networkLog ++ [Attempt.fetchCall ENDPOINT body true true] }

/-- The send function: its try/catch swallows any synchronous failure, so the
caller always gets a normally returning call; a failure before delivery
leaves the world unchanged. -/
def send (w : World) (payload : JSVal) : World :=
  match sendBody w payload with
  | Except.ok w2 => w2
  | Except.error _ => w

/-! ## client-logger.js: payload builder -/

/-- buildPayload (client-logger.js lines 32 to 42) with the three ambient
reads passed explicitly.  Property accesses run in Except because reading a
property of null/undefined throws; the code's `metadata && metadata.stack`
guards make that unreachable. -/
def buildPayloadCore (href ua nowIso : String) (level message metadata : JSVal) :
    Except String JSVal := do
  let stackCond ← jsAndE metadata (getFieldE metadata "stack")
  let stackVal ←
    if truthy stackCond then do
      let s ← getFieldE metadata "stack"
      pure (JSVal.str (jsToString s))
    else pure (JSVal.str "")
  let extraCond ← jsAndE metadata (getFieldE metadata "extra")
  let extraVal ←
    if truthy extraCond then getFieldE metadata "extra"
    else pure JSVal.undefined
  pure (JSVal.obj
    [("level", level),
     ("message", truncate (jsOr message (JSVal.str ""))),
     ("url", JSVal.str href),
     ("ua", JSVal.str ua),
     ("ts", JSVal.str nowIso),
     ("stack", truncate stackVal),
     ("extra", extraVal)])

/-- The value buildPayload produces when it returns normally. -/
def buildPayloadPure (href ua nowIso : String) (level message metadata : JSVal) : JSVal :=
  JSVal.obj
    [("level", level),
     ("message", truncate (jsOr message (JSVal.str ""))),
     ("url", JSVal.str href),
     ("ua", JSVal.str ua),
     ("ts", JSVal.str nowIso),
     ("stack", truncate (if truthy (jsAnd metadata (getProp metadata "stack"))
        then JSVal.str (jsToString (getProp metadata "stack"))
        else JSVal.str "")),
     ("extra", if truthy (jsAnd metadata (getProp metadata "extra"))
        then getProp metadata "extra"
        else JSVal.undefined)]

/-- buildPayload acting on the ambient world: it reads href, userAgent and
the clock, and leaves the world untouched. -/
def buildPayloadW (w : World) (level message metadata : JSVal) :
    World × Except String JSVal :=
  (w, buildPayloadCore w.href w.userAgent w.nowIso level message metadata)

/-- The fields of a browser ErrorEvent used by the error listener. -/
structure ErrorEvent where
  message : JSVal
  error : JSVal
  filename : JSVal
  lineno : JSVal
  colno : JSVal

/-- Payload built by the window error listener (client-logger.js lines 44
to 54). -/
def errorPayload (href ua nowIso : String) (ev : ErrorEvent) : Except String JSVal := do
  let stk ← jsAndE ev.error (getFieldE ev.error "stack")
  buildPayloadCore href ua nowIso (JSVal.str "error")
    (jsOr ev.message (JSVal.str "Script error"))
    (JSVal.obj
      [("stack", stk),
       ("extra", JSVal.obj
         [("filename", ev.filename), ("lineno", ev.lineno), ("colno", ev.colno)])])

/-- The message selected by the unhandledrejection listener (client-logger.js
lines 56 to 69): the reason itself when it is a truthy string, else its
truthy message property, else the generic placeholder. -/
def rejectionMessage (reason : JSVal) : Except String JSVal :=
  if truthy reason then
    match reason with
    | JSVal.str t => Except.ok (JSVal.str t)
    | _ => do
        let m ← getFieldE reason "message"
        if truthy m then pure m else pure (JSVal.str "Unhandled promise rejection")
  else Except.ok (JSVal.str "Unhandled promise rejection")

/-- The stack selected by the unhandledrejection listener. -/
def rejectionStack (reason : JSVal) : Except String JSVal :=
  if truthy reason then do
    let c ← jsAndE reason (getFieldE reason "stack")
    if truthy c then getFieldE reason "stack" else pure (JSVal.str "")
  else Except.ok (JSVal.str "")

/-- Payload built by the unhandledrejection listener. -/
def rejectionPayload (href ua nowIso : String) (reason : JSVal) : Except String JSVal := do
  let msg ← rejectionMessage reason
  let stk ← rejectionStack reason
  buildPayloadCore href ua nowIso (JSVal.str "error") msg (JSVal.obj [("stack", stk)])

/-- Pure form of the rejection-listener message selection. -/
def rejMsgPure (reason : JSVal) : JSVal :=
  if truthy reason then
    match reason with
    | JSVal.str t => JSVal.str t
    | _ =>
        if truthy (getProp reason "message") then getProp reason "message"
        else JSVal.str "Unhandled promise rejection"
  else JSVal.str "Unhandled promise rejection"

/-- Pure form of the rejection-listener stack selection. -/
def rejStackPure (reason : JSVal) : JSVal :=
  if truthy reason then
    (if truthy (jsAnd reason (getProp reason "stack")) then getProp reason "stack"
     else JSVal.str "")
  else JSVal.str ""

/-- Pure form of the error-listener stack selection. -/
def errStackPure (ev : ErrorEvent) : JSVal :=
  jsAnd ev.error (getProp ev.error "stack")

/-- Key list of a successfully built payload object. -/
def payloadKeys (r : Except String JSVal) : List String :=
  match r with
  | Except.ok (JSVal.obj fs) => fs.map Prod.fst
  | _ => []

/-- Field of a successfully built payload object (undefined on failure). -/
def payloadField (r : Except String JSVal) (k : String) : JSVal :=
  match r with
  | Except.ok v => getProp v k
  | _ => JSVal.undefined

/-! ## Server side: redactor (spec section 4.4)

The redactor and rate limiter run in the backend, whose sources are not part
of the repository snapshot; they are modelled from the observability
specification and OBSERVABILITY.md. -/

/-- Modelled from the spec: structured payloads handled by the server-side
redactor (nested mappings and sequences with scalar leaves).  The backend
source is not in the repository; only its contract is specified. -/
inductive JValue where
  | str (s : String)
  | num (n : Int)
  | bool (b : Bool)
  | null
  | arr (elems : List JValue)
  | obj (fields : List (String × JValue))

/-- Character-level lowercasing used for case-insensitive field matching. -/
def lowerStr (s : String) : String :=
  String.mk (s.data.map Char.toLower)

/-- Modelled from the spec: case-insensitive membership of a mapping key in
the configured SENSITIVE_FIELDS set. -/
def isSensitive (sf : List String) (k : String) : Bool :=
  sf.any (fun s => lowerStr s == lowerStr k)

/-- Modelled from the spec: the fixed redaction marker `[REDACTED]` named in
OBSERVABILITY.md. -/
def REDACTED : String := "[REDACTED]"

/-- Modelled from the spec: `redact(value, sensitiveFields)` applied
recursively over nested mappings and sequences.  A mapping key whose name is
case-insensitively sensitive has its value replaced by the marker regardless
of type; sequence elements are recursed into but never themselves redaction
targets; a depth cap guarantees termination, material past the cap being
passed through un-recursed. -/
def redact (sf : List String) : Nat → JValue → JValue
  | 0, v => v
  | Nat.succ d, JValue.obj fs =>
      JValue.obj (fs.map (fun kv =>
        if isSensitive sf kv.1 then (kv.1, JValue.str REDACTED)
        else (kv.1, redact sf d kv.2)))
  | Nat.succ d, JValue.arr xs => JValue.arr (xs.map (redact sf d))
  | Nat.succ _, v => v

mutual
/-- Whether the string s occurs as a string leaf anywhere in the value: the
structural reading of "the serialized output contains the original value". -/
def occursStr (s : String) : JValue → Bool
  | JValue.str t => s == t
  | JValue.arr xs => occursStrList s xs
  | JValue.obj fs => occursStrFields s fs
  | _ => false
def occursStrList (s : String) : List JValue → Bool
  | [] => false
  | v :: vs => occursStr s v || occursStrList s vs
def occursStrFields (s : String) : List (String × JValue) → Bool
  | [] => false
  | (_, v) :: fs => occursStr s v || occursStrFields s fs
end

mutual
/-- Every occurrence of the string x in the value lies under a
case-insensitively sensitive mapping key reached within d levels of
recursion: the inputs on which redaction to depth d is guaranteed to remove
x entirely.  At depth 0 (past the cap) this requires x to be absent
outright. -/
def valueShielded (sf : List String) (x : String) : Nat → JValue → Bool
  | _, JValue.str t => !(x == t)
  | _, JValue.num _ => true
  | _, JValue.bool _ => true
  | _, JValue.null => true
  | d, JValue.obj fs =>
      if d = 0 then !(occursStrFields x fs) else fieldsShielded sf x (d - 1) fs
  | d, JValue.arr xs =>
      if d = 0 then !(occursStrList x xs) else listShielded sf x (d - 1) xs
def fieldsShielded (sf : List String) (x : String) : Nat → List (String × JValue) → Bool
  | _, [] => true
  | d, (k, v) :: fs =>
      (if isSensitive sf k then true else valueShielded sf x d v)
        && fieldsShielded sf x d fs
def listShielded (sf : List String) (x : String) : Nat → List JValue → Bool
  | _, [] => true
  | d, v :: vs => valueShielded sf x d v && listShielded sf x d vs
end

/-! ## Server side: rate limiter (spec section 4.3) -/

/-- Modelled from the spec: the rate-limiter configuration surface, the
window size in seconds (CLIENT_LOG_WINDOW_SECONDS) and the per-window event
limit (CLIENT_LOG_RATE_LIMIT). -/
structure RLConfig where
  window : Nat
  limit : Nat

/-- Modelled from the spec: per-source rate-limit state, a bucket of retained
event timestamps for each source identifier; a key that was never touched
holds the empty bucket, so absence equals zero recent activity. -/
def RLState : Type := String → List Nat

/-- The state at process start: no activity recorded for any source. -/
def emptyRL : RLState := fun _ => []

/-- Replaces one source's bucket. -/
def setBucket (st : RLState) (key : String) (l : List Nat) : RLState :=
  fun k => if k = key then l else st k

/-- Modelled from the spec: the admission decision of section 4.3.  On each
call the timestamps of the source older than now minus the window are
discarded; if fewer than limit remain, now is recorded and the call accepts,
otherwise the event is rejected without being recorded. -/
def accept (cfg : RLConfig) (st : RLState) (key : String) (now : Nat) : Bool × RLState :=
  let recent := (st key).filter (fun t => decide (now - cfg.window ≤ t))
  if recent.length < cfg.limit then
    (true, setBucket st key (now :: recent))
  else
    (false, setBucket st key recent)

/-- Runs a sequence of admission calls for one source at the given times. -/
def runAccept (cfg : RLConfig) (st : RLState) (key : String) : List Nat → List Bool × RLState
  | [] => ([], st)
  | t :: ts =>
      let r := accept cfg st key t
      let rest := runAccept cfg r.2 key ts
      (r.1 :: rest.1, rest.2)

/-- Runs a sequence of admission calls for arbitrary sources. -/
def runCalls (cfg : RLConfig) : RLState → List (String × Nat) → RLState
  | st, [] => st
  | st, (k, t) :: cs => runCalls cfg (accept cfg st k t).2 cs

/-! ## Helper lemmas: the payload builder never takes the throwing paths -/

theorem getFieldE_ok (v : JSVal) (k : String) (h : truthy v = true) :
    getFieldE v k = Except.ok (getProp v k) := by
  cases v <;> simp_all [truthy, getFieldE]

theorem buildPayloadCore_eq (href ua nowIso : String) (level message metadata : JSVal) :
    buildPayloadCore href ua nowIso level message metadata
      = Except.ok (buildPayloadPure href ua nowIso level message metadata) := by
  cases hm : truthy metadata with
  | false =>
      simp [buildPayloadCore, buildPayloadPure, jsAndE, jsAnd, hm,
        Bind.bind, Except.bind, pure, Except.pure]
  | true =>
      by_cases hs : truthy (getProp metadata "stack") = true <;>
      by_cases he : truthy (getProp metadata "extra") = true <;>
      simp_all [buildPayloadCore, buildPayloadPure, jsAndE, jsAnd, getFieldE_ok,
        Bind.bind, Except.bind, pure, Except.pure, Functor.map, Except.map]

theorem rejectionMessage_eq (reason : JSVal) :
    rejectionMessage reason = Except.ok (rejMsgPure reason) := by
  cases hr : truthy reason with
  | false => simp [rejectionMessage, rejMsgPure, hr]
  | true =>
      cases reason <;>
      simp_all [rejectionMessage, rejMsgPure, truthy, getFieldE,
        Bind.bind, Except.bind, pure, Except.pure,
        apply_ite (f := Except.ok (ε := String))]

theorem rejectionStack_eq (reason : JSVal) :
    rejectionStack reason = Except.ok (rejStackPure reason) := by
  cases hr : truthy reason with
  | false => simp [rejectionStack, rejStackPure, hr]
  | true =>
      cases reason <;>
      simp_all [rejectionStack, rejStackPure, jsAndE, jsAnd, truthy, getFieldE,
        Bind.bind, Except.bind, pure, Except.pure,
        apply_ite (f := Except.ok (ε := String))]

theorem rejectionPayload_eq (href ua nowIso : String) (reason : JSVal) :
    rejectionPayload href ua nowIso reason
      = Except.ok (buildPayloadPure href ua nowIso (JSVal.str "error") (rejMsgPure reason)
          (JSVal.obj [("stack", rejStackPure reason)])) := by
  simp [rejectionPayload, rejectionMessage_eq, rejectionStack_eq, buildPayloadCore_eq,
    Bind.bind, Except.bind]

theorem errorPayload_eq (href ua nowIso : String) (ev : ErrorEvent) :
    errorPayload href ua nowIso ev
      = Except.ok (buildPayloadPure href ua nowIso (JSVal.str "error")
          (jsOr ev.message (JSVal.str "Script error"))
          (JSVal.obj
            [("stack", errStackPure ev),
             ("extra", JSVal.obj
               [("filename", ev.filename), ("lineno", ev.lineno), ("colno", ev.colno)])])) := by
  cases he : truthy ev.error with
  | false =>
      simp [errorPayload, errStackPure, jsAndE, jsAnd, he, buildPayloadCore_eq,
        Bind.bind, Except.bind]
  | true =>
      simp [errorPayload, errStackPure, jsAndE, jsAnd, he, getFieldE_ok, buildPayloadCore_eq,
        Bind.bind, Except.bind]

/-! ## String helper lemmas for truncation -/

theorem strLength_append (a b : String) : (a ++ b).length = a.length + b.length := by
  show ((a ++ b).data).length = a.data.length + b.data.length
  rw [String.data_append]
  exact List.length_append a.data b.data

theorem jsSlice_length (s : String) (n : Nat) : (jsSlice s n).length = min n s.length :=
  List.length_take n s.data

theorem markerCount_append (a b : String) :
    markerCount (a ++ b) = markerCount a + markerCount b := by
  simp [markerCount, String.data_append, List.count_append]

/-! ## Claim C1 -/

set_option maxRecDepth 10000 in
/-- C1 counterexample: for an over-length input that already contains the
horizontal-ellipsis marker, the truncated result contains the marker twice,
so the claim that the marker appears exactly once in the output is false. -/
theorem truncate_marker_not_unique_cex :
    MAX_MESSAGE_LENGTH < (String.mk ('…' :: List.replicate 500 'a')).length
    ∧ truncate (JSVal.str (String.mk ('…' :: List.replicate 500 'a')))
        = JSVal.str (jsSlice (String.mk ('…' :: List.replicate 500 'a')) MAX_MESSAGE_LENGTH
            ++ truncationMarker)
    ∧ markerCount (jsSlice (String.mk ('…' :: List.replicate 500 'a')) MAX_MESSAGE_LENGTH
        ++ truncationMarker) = 2 :=
  ⟨by decide, rfl, by decide⟩

/-- C1 (amended): for every string longer than the configured maximum of 500
characters, truncate returns the first 500 characters followed by exactly one
appended truncation marker, so the result length is the maximum plus the
marker length; the marker occurs exactly once in the result provided the
first 500 characters of the input contain no marker themselves. -/
theorem truncate_overlong_spec (s : String) (h : MAX_MESSAGE_LENGTH < s.length) :
    truncate (JSVal.str s) = JSVal.str (jsSlice s MAX_MESSAGE_LENGTH ++ truncationMarker)
    ∧ (jsSlice s MAX_MESSAGE_LENGTH ++ truncationMarker).length
        = MAX_MESSAGE_LENGTH + truncationMarker.length
    ∧ (markerCount (jsSlice s MAX_MESSAGE_LENGTH) = 0 →
        markerCount (jsSlice s MAX_MESSAGE_LENGTH ++ truncationMarker) = 1) := by
  refine ⟨by simp [truncate, h], ?_, ?_⟩
  · rw [strLength_append, jsSlice_length]
    have : MAX_MESSAGE_LENGTH < s.length := h
    simp [MAX_MESSAGE_LENGTH, truncationMarker] at *
    omega
  · intro h0
    rw [markerCount_append, h0]
    rfl

set_option maxRecDepth 10000 in
/-- C1 witness: the amended statement at a concrete 501-character input. -/
theorem truncate_overlong_spec_witness :
    truncate (JSVal.str (String.mk (List.replicate 501 'a')))
        = JSVal.str (jsSlice (String.mk (List.replicate 501 'a')) MAX_MESSAGE_LENGTH
            ++ truncationMarker)
    ∧ (jsSlice (String.mk (List.replicate 501 'a')) MAX_MESSAGE_LENGTH
        ++ truncationMarker).length = MAX_MESSAGE_LENGTH + truncationMarker.length
    ∧ (markerCount (jsSlice (String.mk (List.replicate 501 'a')) MAX_MESSAGE_LENGTH) = 0 →
        markerCount (jsSlice (String.mk (List.replicate 501 'a')) MAX_MESSAGE_LENGTH
          ++ truncationMarker) = 1) :=
  truncate_overlong_spec (String.mk (List.replicate 501 'a')) (by decide)

/-! ## Claim C10 -/

/-- C10: truncate is the identity on every non-string value and on every
string whose length is at most the configured maximum of 500. -/
theorem truncate_identity_short :
    (∀ v : JSVal, isString v = false → truncate v = v)
    ∧ (∀ s : String, s.length ≤ MAX_MESSAGE_LENGTH → truncate (JSVal.str s) = JSVal.str s) := by
  constructor
  · intro v hv
    cases v <;> simp_all [truncate, isString]
  · intro s hs
    simp [truncate, Nat.not_lt.mpr hs]

/-- C10 witness: identity at a non-string and at a short string. -/
theorem truncate_identity_short_witness :
    truncate (JSVal.num 7) = JSVal.num 7 ∧ truncate (JSVal.str "ok") = JSVal.str "ok" :=
  ⟨truncate_identity_short.1 (JSVal.num 7) rfl,
   truncate_identity_short.2 "ok" (by decide)⟩

/-! ## Claim C7 -/

/-- C7: the payload builder never raises: for all inputs, including null,
undefined and arbitrarily shaped message, stack and metadata values, building
a payload (directly and through both event listeners) returns normally with
a payload value. -/
theorem buildPayload_total (href ua nowIso : String) (level message metadata : JSVal)
    (ev : ErrorEvent) (reason : JSVal) :
    (∃ p, buildPayloadCore href ua nowIso level message metadata = Except.ok p)
    ∧ (∃ p, errorPayload href ua nowIso ev = Except.ok p)
    ∧ (∃ p, rejectionPayload href ua nowIso reason = Except.ok p) :=
  ⟨⟨_, buildPayloadCore_eq href ua nowIso level message metadata⟩,
   ⟨_, errorPayload_eq href ua nowIso ev⟩,
   ⟨_, rejectionPayload_eq href ua nowIso reason⟩⟩

/-! ## Claim C4 -/

/-- C4 counterexample: a payload built by buildPayload has no field named
userAgent and no field named timestamp; the browser field names are ua and
ts. -/
theorem payload_field_names_cex :
    ¬ ("userAgent" ∈ payloadKeys
        (buildPayloadCore "u" "a" "t" (JSVal.str "error") (JSVal.str "m") JSVal.undefined))
    ∧ ¬ ("timestamp" ∈ payloadKeys
        (buildPayloadCore "u" "a" "t" (JSVal.str "error") (JSVal.str "m") JSVal.undefined))
    ∧ payloadKeys (buildPayloadCore "u" "a" "t" (JSVal.str "error") (JSVal.str "m") JSVal.undefined)
        = ["level", "message", "url", "ua", "ts", "stack", "extra"] :=
  ⟨by decide, by decide, by decide⟩

/-- C4 (amended): every payload built by buildPayload is an object with
exactly the keys level, message, url, ua, ts, stack and extra, in that
order; level carries the level argument (both listeners pass "error"), url
and ua carry the ambient location and user agent, and ts carries the
clock's ISO-8601 serialization. -/
theorem payload_shape_spec (href ua nowIso : String) (level message metadata : JSVal)
    (ev : ErrorEvent) (reason : JSVal) :
    payloadKeys (buildPayloadCore href ua nowIso level message metadata)
      = ["level", "message", "url", "ua", "ts", "stack", "extra"]
    ∧ payloadField (buildPayloadCore href ua nowIso level message metadata) "level" = level
    ∧ payloadField (buildPayloadCore href ua nowIso level message metadata) "url" = JSVal.str href
    ∧ payloadField (buildPayloadCore href ua nowIso level message metadata) "ua" = JSVal.str ua
    ∧ payloadField (buildPayloadCore href ua nowIso level message metadata) "ts" = JSVal.str nowIso
    ∧ payloadField (errorPayload href ua nowIso ev) "level" = JSVal.str "error"
    ∧ payloadField (rejectionPayload href ua nowIso reason) "level" = JSVal.str "error" := by
  refine ⟨?_, ?_, ?_, ?_, ?_, ?_, ?_⟩ <;>
  simp [buildPayloadCore_eq, errorPayload_eq, rejectionPayload_eq,
    payloadKeys, payloadField, buildPayloadPure, getProp, List.lookup]

/-! ## Claim C9 -/

/-- C9: buildPayload performs no network or DOM side effect: it leaves the
world unchanged, and its result depends on the world only through the three
ambient reads href, userAgent and the clock's ISO serialization. -/
theorem buildPayload_frame (w : World) (level message metadata : JSVal) :
    (buildPayloadW w level message metadata).1 = w
    ∧ (buildPayloadW w level message metadata).2
        = buildPayloadCore w.href w.userAgent w.nowIso level message metadata
    ∧ (∀ w2 : World, w.href = w2.href → w.userAgent = w2.userAgent → w.nowIso = w2.nowIso →
        (buildPayloadW w level message metadata).2 = (buildPayloadW w2 level message metadata).2) := by
  refine ⟨rfl, rfl, ?_⟩
  intro w2 h1 h2 h3
  simp [buildPayloadW, h1, h2, h3]

/-- C9 witness: two worlds that differ in network log, DOM content and
beacon support but agree on the three ambient reads give identical
payloads, and the world is returned unchanged. -/
theorem buildPayload_frame_witness :
    (buildPayloadW ⟨"http://x", "UA", "2026-01-01T00:00:00.000Z", true, [], []⟩
        JSVal.null JSVal.null JSVal.null).1
      = ⟨"http://x", "UA", "2026-01-01T00:00:00.000Z", true, [], []⟩
    ∧ (buildPayloadW ⟨"http://x", "UA", "2026-01-01T00:00:00.000Z", true, [], []⟩
        JSVal.null JSVal.null JSVal.null).2
      = (buildPayloadW ⟨"http://x", "UA", "2026-01-01T00:00:00.000Z", false,
          [Attempt.beacon "u" "b"], ["dom"]⟩ JSVal.null JSVal.null JSVal.null).2 :=
  ⟨(buildPayload_frame ⟨"http://x", "UA", "2026-01-01T00:00:00.000Z", true, [], []⟩
      JSVal.null JSVal.null JSVal.null).1,
   (buildPayload_frame ⟨"http://x", "UA", "2026-01-01T00:00:00.000Z", true, [], []⟩
      JSVal.null JSVal.null JSVal.null).2.2
      ⟨"http://x", "UA", "2026-01-01T00:00:00.000Z", false, [Attempt.beacon "u" "b"], ["dom"]⟩
      rfl rfl rfl⟩

/-! ## Claim C5 -/

/-- Placeholder strings are short, so truncate leaves them unchanged. -/
theorem truncate_unhandled :
    truncate (JSVal.str "Unhandled promise rejection") = JSVal.str "Unhandled promise rejection" := rfl

/-- Script error placeholder is short, so truncate leaves it unchanged. -/
theorem truncate_script_error :
    truncate (JSVal.str "Script error") = JSVal.str "Script error" := rfl

/-- C5 (amended): for a non-string rejection reason the payload message is
the truncation of the reason's message property when the reason and that
property are truthy (for a string property: present and non-empty), else the
generic placeholder; for an error event with a falsy message the payload
message is the Script error placeholder. -/
theorem rejection_message_selection (href ua nowIso : String) (reason : JSVal) (ev : ErrorEvent) :
    (isString reason = false →
      payloadField (rejectionPayload href ua nowIso reason) "message"
        = (if truthy reason && truthy (getProp reason "message")
           then truncate (getProp reason "message")
           else JSVal.str "Unhandled promise rejection"))
    ∧ (truthy ev.message = false →
      payloadField (errorPayload href ua nowIso ev) "message" = JSVal.str "Script error") := by
  constructor
  · intro hns
    rw [rejectionPayload_eq]
    (cases reason <;>
      simp_all [payloadField, buildPayloadPure, getProp, List.lookup, rejMsgPure,
        jsOr, truthy, isString, truncate_unhandled])
    split <;> simp_all [truncate_unhandled, truthy]
  · intro hev
    rw [errorPayload_eq]
    have h1 : truthy (JSVal.str "Script error") = true := rfl
    simp [payloadField, buildPayloadPure, getProp, List.lookup, jsOr, hev, h1,
      truncate_script_error]

/-- C5 witness: a null rejection reason gives the generic placeholder, and an
error event without message gives the Script error placeholder. -/
theorem rejection_message_selection_witness :
    payloadField (rejectionPayload "h" "u" "t" JSVal.null) "message"
      = JSVal.str "Unhandled promise rejection"
    ∧ payloadField (errorPayload "h" "u" "t"
        ⟨JSVal.undefined, JSVal.undefined, JSVal.undefined, JSVal.undefined, JSVal.undefined⟩)
        "message" = JSVal.str "Script error" :=
  ⟨(rejection_message_selection "h" "u" "t" JSVal.null
      ⟨JSVal.undefined, JSVal.undefined, JSVal.undefined, JSVal.undefined, JSVal.undefined⟩).1 rfl,
   (rejection_message_selection "h" "u" "t" JSVal.null
      ⟨JSVal.undefined, JSVal.undefined, JSVal.undefined, JSVal.undefined, JSVal.undefined⟩).2 rfl⟩

set_option maxRecDepth 10000 in
/-- C5 counterexample: for a rejection reason whose message property is a
501-character string, the built payload's message is the truncated string,
which differs from the reason's message property, so the claimed equality
with the message field fails. -/
theorem rejection_message_truncation_cex :
    payloadField
        (rejectionPayload "h" "u" "t"
          (JSVal.obj [("message", JSVal.str (String.mk (List.replicate 501 'b')))])) "message"
      = JSVal.str (jsSlice (String.mk (List.replicate 501 'b')) MAX_MESSAGE_LENGTH
          ++ truncationMarker)
    ∧ JSVal.str (jsSlice (String.mk (List.replicate 501 'b')) MAX_MESSAGE_LENGTH
          ++ truncationMarker)
        ≠ JSVal.str (String.mk (List.replicate 501 'b')) := by
  constructor
  · rfl
  · intro h
    injection h with h2
    exact absurd h2 (by decide)

/-! ## Claim C6 -/

/-- C6: the transport is fire-and-forget: send always returns normally (it
is a total function whose try/catch absorbs the one fallible step), makes at
most one delivery attempt, swallows serialization failures with no attempt
and no retry, touches neither the DOM nor the ambient reads, and when
sendBeacon is unavailable performs exactly one fetch call with keepalive set
and its rejection caught. -/
theorem send_fire_and_forget (w : World) (payload : JSVal) :
    (send w payload).networkLog.length ≤ w.networkLog.length + 1
    ∧ (∀ e, stringify payload = Except.error e → send w payload = w)
    ∧ (∀ body, w.hasSendBeacon = false → stringify payload = Except.ok body →
        send w payload
          = { w with networkLog := w.networkLog ++ [Attempt.fetchCall ENDPOINT body true true] })
    ∧ (∀ body, w.hasSendBeacon = true → stringify payload = Except.ok body →
        send w payload = { w with networkLog := w.networkLog ++ [Attempt.beacon ENDPOINT body] })
    ∧ (send w payload).domText = w.domText
    ∧ (send w payload).href = w.href := by
  cases hstr : stringify payload with
  | error e =>
      simp [send, sendBody, hstr, Bind.bind, Except.bind]
  | ok body =>
      cases hb : w.hasSendBeacon <;>
      simp_all [send, sendBody, hstr, Bind.bind, Except.bind, pure, Except.pure]

/-- C6 witness: a BigInt payload cannot be serialized and is swallowed with
no attempt; a plain object payload on a beacon-less browser produces exactly
one keepalive fetch with its rejection handled. -/
theorem send_fire_and_forget_witness :
    send ⟨"h", "UA", "t", false, [], []⟩ (JSVal.bigint 1) = ⟨"h", "UA", "t", false, [], []⟩
    ∧ send ⟨"h", "UA", "t", false, [], []⟩ (JSVal.obj [("level", JSVal.str "error")])
        = ⟨"h", "UA", "t", false,
            [Attempt.fetchCall ENDPOINT "\x7b\"level\":\"error\"\x7d" true true], []⟩ :=
  ⟨(send_fire_and_forget ⟨"h", "UA", "t", false, [], []⟩ (JSVal.bigint 1)).2.1
      "TypeError: cannot serialize a BigInt" rfl,
   (send_fire_and_forget ⟨"h", "UA", "t", false, [], []⟩
      (JSVal.obj [("level", JSVal.str "error")])).2.2.1
      "\x7b\"level\":\"error\"\x7d" rfl rfl⟩

/-! ## Claim C2 -/

theorem listSafe (sf : List String) (x : String) (d : Nat)
    (ih : ∀ v, valueShielded sf x d v = true → occursStr x (redact sf d v) = false) :
    ∀ xs, listShielded sf x d xs = true →
      occursStrList x (xs.map (redact sf d)) = false := by
  intro xs
  induction xs with
  | nil => intro _; simp [occursStrList]
  | cons y ys ihy =>
      intro hv
      simp only [listShielded, Bool.and_eq_true] at hv
      simp only [List.map, occursStrList]
      rw [ih y hv.1, ihy hv.2]
      rfl

theorem fieldsSafe (sf : List String) (x : String) (hxb : (x == REDACTED) = false) (d : Nat)
    (ih : ∀ v, valueShielded sf x d v = true → occursStr x (redact sf d v) = false) :
    ∀ fs, fieldsShielded sf x d fs = true →
      occursStrFields x (fs.map (fun kv =>
        if isSensitive sf kv.1 then (kv.1, JValue.str REDACTED)
        else (kv.1, redact sf d kv.2))) = false := by
  intro fs
  induction fs with
  | nil => intro _; simp [occursStrFields]
  | cons kv fs ihf =>
      intro hv
      obtain ⟨k, v⟩ := kv
      simp only [fieldsShielded, Bool.and_eq_true] at hv
      by_cases hk : isSensitive sf k = true
      · simp only [List.map, hk, if_true, reduceIte]
        simp only [occursStrFields, occursStr, hxb]
        simpa using ihf hv.2
      · have hk0 : isSensitive sf k = false := by simpa using hk
        have hv1 : valueShielded sf x d v = true := by
          have := hv.1
          rwa [hk0, if_neg (by simp)] at this
        simp only [List.map, hk0, Bool.false_eq_true, if_false, reduceIte]
        simp only [occursStrFields]
        rw [ih v hv1, ihf hv.2]
        rfl

/-- C2 counterexample: the specified redactor carries a depth cap past which
material is passed through un-recursed, so a sensitive key nested beyond the
cap keeps its value; and a value repeated under a non-sensitive key survives
even though the same value sat under a sensitive key.  Both refute the claim
that the output never contains the original value of a payload holding a
sensitive key at any depth. -/
theorem redact_leak_cex :
    isSensitive ["password", "token"] "password" = true
    ∧ occursStr "abc" (redact ["password", "token"] 1
        (JValue.obj [("nested", JValue.obj [("password", JValue.str "abc")])])) = true
    ∧ occursStr "xyz" (redact ["password", "token"] 3
        (JValue.obj [("password", JValue.str "xyz"), ("note", JValue.str "xyz")])) = true :=
  ⟨by decide, by decide, by decide⟩

/-- C2 (amended): for a string value distinct from the redaction marker,
every occurrence of which lies under a case-insensitively sensitive mapping
key reached within the redactor's depth cap, the redacted output contains no
occurrence of the value anywhere. -/
theorem redact_no_leak (sf : List String) (x : String) (d : Nat) (v : JValue)
    (hx : x ≠ REDACTED) (hv : valueShielded sf x d v = true) :
    occursStr x (redact sf d v) = false := by
  have hxb : (x == REDACTED) = false := by simp [hx]
  induction d generalizing v with
  | zero =>
      cases v with
      | str t => simp only [valueShielded] at hv; simpa [redact, occursStr] using hv
      | num n => simp [redact, occursStr]
      | bool b => simp [redact, occursStr]
      | null => simp [redact, occursStr]
      | obj fs =>
          simp only [valueShielded, if_pos rfl] at hv
          simpa [redact, occursStr] using hv
      | arr xs =>
          simp only [valueShielded, if_pos rfl] at hv
          simpa [redact, occursStr] using hv
  | succ d ih =>
      cases v with
      | str t => simp only [valueShielded] at hv; simpa [redact, occursStr] using hv
      | num n => simp [redact, occursStr]
      | bool b => simp [redact, occursStr]
      | null => simp [redact, occursStr]
      | obj fs =>
          simp only [valueShielded, Nat.succ_ne_zero, if_false, Nat.add_sub_cancel] at hv
          simp only [redact, occursStr]
          exact fieldsSafe sf x hxb d ih fs (by simpa using hv)
      | arr xs =>
          simp only [valueShielded, Nat.succ_ne_zero, if_false, Nat.add_sub_cancel] at hv
          simp only [redact, occursStr]
          exact listSafe sf x d ih xs (by simpa using hv)

/-- C2 witness: a payload with sensitive keys at several depths and casings,
all within cap, loses every trace of the secret. -/
theorem redact_no_leak_witness :
    ("abc" ≠ REDACTED
      ∧ valueShielded ["password", "token"] "abc" 3
          (JValue.obj
            [("Password", JValue.str "abc"),
             ("nested", JValue.obj [("token", JValue.str "abc")]),
             ("items", JValue.arr [JValue.obj [("PASSWORD", JValue.str "abc")]])]) = true)
    ∧ occursStr "abc" (redact ["password", "token"] 3
        (JValue.obj
          [("Password", JValue.str "abc"),
           ("nested", JValue.obj [("token", JValue.str "abc")]),
           ("items", JValue.arr [JValue.obj [("PASSWORD", JValue.str "abc")]])])) = false :=
  ⟨⟨by decide, by decide⟩,
   redact_no_leak ["password", "token"] "abc" 3
     (JValue.obj
       [("Password", JValue.str "abc"),
        ("nested", JValue.obj [("token", JValue.str "abc")]),
        ("items", JValue.arr [JValue.obj [("PASSWORD", JValue.str "abc")]])])
     (by decide) (by decide)⟩

/-! ## Rate limiter helper lemmas -/

theorem filterAllOf (p : Nat → Bool) :
    ∀ (l : List Nat), (∀ x ∈ l, p x = true) → l.filter p = l := by
  intro l
  induction l with
  | nil => intro _; rfl
  | cons x xs ih =>
      intro h
      have hx := h x (by simp)
      simp [List.filter, hx, ih (fun y hy => h y (by simp [hy]))]

theorem filterNoneOf (p : Nat → Bool) :
    ∀ (l : List Nat), (∀ x ∈ l, p x = false) → l.filter p = [] := by
  intro l
  induction l with
  | nil => intro _; rfl
  | cons x xs ih =>
      intro h
      have hx := h x (by simp)
      simp [List.filter, hx, ih (fun y hy => h y (by simp [hy]))]

theorem count_true_add_count_false (bs : List Bool) :
    bs.count true + bs.count false = bs.length := by
  induction bs with
  | nil => rfl
  | cons b bs ih => cases b <;> simp [List.count_cons] <;> omega

theorem runAccept_length (cfg : RLConfig) (key : String) :
    ∀ (ts : List Nat) (st : RLState), (runAccept cfg st key ts).1.length = ts.length := by
  intro ts
  induction ts with
  | nil => intro st; rfl
  | cons t ts ih => intro st; simp [runAccept, ih]

theorem runAccept_aux (cfg : RLConfig) (key : String) (a : Nat) :
    ∀ (ts : List Nat) (st : RLState),
      (∀ t ∈ ts, a ≤ t ∧ t ≤ a + cfg.window) →
      (∀ t ∈ st key, a ≤ t ∧ t ≤ a + cfg.window) →
      (runAccept cfg st key ts).1.count true = min ts.length (cfg.limit - (st key).length)
      ∧ ((runAccept cfg st key ts).2 key).length
          = (st key).length + (runAccept cfg st key ts).1.count true := by
  intro ts
  induction ts with
  | nil =>
      intro st hts hst
      simp [runAccept]
  | cons t ts ih =>
      intro st hts hst
      have htaa : a ≤ t := (hts t (by simp)).1
      have hta : t ≤ a + cfg.window := (hts t (by simp)).2
      have hfil : (st key).filter (fun x => decide (t - cfg.window ≤ x)) = st key := by
        apply filterAllOf
        intro x hx
        have hax : a ≤ x := (hst x hx).1
        simp
        omega
      have hts' : ∀ u ∈ ts, a ≤ u ∧ u ≤ a + cfg.window := fun u hu => hts u (by simp [hu])
      by_cases hlt : (st key).length < cfg.limit
      · have hacc : accept cfg st key t = (true, setBucket st key (t :: st key)) := by
          simp only [accept]
          rw [hfil]
          simp [hlt]
        have hst' : ∀ u ∈ (setBucket st key (t :: st key)) key, a ≤ u ∧ u ≤ a + cfg.window := by
          intro u hu
          simp [setBucket] at hu
          rcases hu with h | h
          · subst h; exact ⟨htaa, hta⟩
          · exact hst u h
        have IH := ih (setBucket st key (t :: st key)) hts' hst'
        have hsb : (setBucket st key (t :: st key)) key = t :: st key := by simp [setBucket]
        rw [hsb] at IH
        simp only [runAccept, hacc, List.count_cons, List.length_cons] at *
        constructor
        · simp
          omega
        · simp
          omega
      · have hacc : accept cfg st key t = (false, setBucket st key (st key)) := by
          simp only [accept]
          rw [hfil]
          simp [hlt]
        have hst' : ∀ u ∈ (setBucket st key (st key)) key, a ≤ u ∧ u ≤ a + cfg.window := by
          intro u hu
          simp [setBucket] at hu
          exact hst u hu
        have IH := ih (setBucket st key (st key)) hts' hst'
        have hsb : (setBucket st key (st key)) key = st key := by simp [setBucket]
        rw [hsb] at IH
        simp only [runAccept, hacc, List.count_cons, List.length_cons] at *
        constructor
        · simp
          omega
        · simp
          omega

/-! ## Claim C3 -/

/-- C3: for a sequence of more than limit admission calls for one source,
all lying inside one window span, exactly limit calls return true and the
remaining calls return false, in every call order; since rejected calls
record nothing, the bucket afterwards holds exactly limit timestamps. -/
theorem rate_limit_exact (cfg : RLConfig) (key : String) (a : Nat) (ts : List Nat)
    (hts : ∀ t ∈ ts, a ≤ t ∧ t ≤ a + cfg.window) (hn : cfg.limit < ts.length) :
    (runAccept cfg emptyRL key ts).1.count true = cfg.limit
    ∧ (runAccept cfg emptyRL key ts).1.count false = ts.length - cfg.limit
    ∧ ((runAccept cfg emptyRL key ts).2 key).length = cfg.limit := by
  have hst : ∀ t ∈ emptyRL key, a ≤ t ∧ t ≤ a + cfg.window := by
    intro t ht
    simp [emptyRL] at ht
  have H := runAccept_aux cfg key a ts emptyRL hts hst
  have hlen := runAccept_length cfg key ts emptyRL
  have hcf := count_true_add_count_false (runAccept cfg emptyRL key ts).1
  have hempty : emptyRL key = [] := rfl
  rw [hempty] at H
  simp only [List.length_nil, Nat.sub_zero, Nat.zero_add] at H
  refine ⟨?_, ?_, ?_⟩ <;> omega

/-- C3 witness: limit 2, window 60, three calls inside one window: two
accepted, one rejected, bucket left with two timestamps. -/
theorem rate_limit_exact_witness :
    (runAccept ⟨60, 2⟩ emptyRL "1.2.3.4" [100, 110, 120]).1.count true = 2
    ∧ (runAccept ⟨60, 2⟩ emptyRL "1.2.3.4" [100, 110, 120]).1.count false = 3 - 2
    ∧ ((runAccept ⟨60, 2⟩ emptyRL "1.2.3.4" [100, 110, 120]).2 "1.2.3.4").length = 2 :=
  rate_limit_exact ⟨60, 2⟩ "1.2.3.4" 100 [100, 110, 120] (by decide) (by decide)

/-! ## Claim C8 -/

theorem setBucket_self (st : RLState) (key : String) (l : List Nat) :
    setBucket st key l key = l := by
  simp [setBucket]

theorem setBucket_other (st : RLState) (key : String) (l : List Nat) (j : String)
    (hj : j ≠ key) : setBucket st key l j = st j := by
  simp [setBucket, hj]

theorem accept_preserves (cfg : RLConfig) (st : RLState) (key : String) (now : Nat)
    (h : ∀ j, (st j).length ≤ cfg.limit) :
    ∀ j, (((accept cfg st key now).2) j).length ≤ cfg.limit := by
  intro j
  have hfle : ((st key).filter (fun t => decide (now - cfg.window ≤ t))).length
      ≤ (st key).length := List.length_filter_le _ _
  by_cases hlt :
      ((st key).filter (fun t => decide (now - cfg.window ≤ t))).length < cfg.limit
  · simp only [accept]
    rw [if_pos hlt]
    dsimp only
    by_cases hj : j = key
    · subst hj
      rw [setBucket_self]
      simp only [List.length_cons]
      omega
    · rw [setBucket_other st key _ j hj]
      exact h j
  · simp only [accept]
    rw [if_neg hlt]
    dsimp only
    by_cases hj : j = key
    · subst hj
      rw [setBucket_self]
      have := h j
      omega
    · rw [setBucket_other st key _ j hj]
      exact h j

theorem runCalls_bound (cfg : RLConfig) :
    ∀ (cs : List (String × Nat)) (st : RLState),
      (∀ j, (st j).length ≤ cfg.limit) →
      ∀ j, ((runCalls cfg st cs) j).length ≤ cfg.limit := by
  intro cs
  induction cs with
  | nil => intro st h j; simpa [runCalls] using h j
  | cons c cs ih =>
      intro st h j
      obtain ⟨k, t⟩ := c
      simp only [runCalls]
      exact ih _ (accept_preserves cfg st k t h) j

/-- C8: a source idle for longer than one full window is decided exactly as
a never-seen source (its surviving history is empty, like the empty state's),
and after any sequence of admission calls from process start no key ever
retains more than limit timestamps. -/
theorem rate_limit_idle_and_bound (cfg : RLConfig) :
    (∀ (st : RLState) (key : String) (now : Nat),
      (∀ t ∈ st key, t < now - cfg.window) →
        (accept cfg st key now).1 = (accept cfg emptyRL key now).1
        ∧ (accept cfg st key now).2 key = (accept cfg emptyRL key now).2 key)
    ∧ (∀ (cs : List (String × Nat)) (key : String),
        ((runCalls cfg emptyRL cs) key).length ≤ cfg.limit) := by
  constructor
  · intro st key now hidle
    have hfil : (st key).filter (fun t => decide (now - cfg.window ≤ t)) = [] := by
      apply filterNoneOf
      intro x hx
      have := hidle x hx
      simp
      omega
    have hfe : (emptyRL key).filter (fun t => decide (now - cfg.window ≤ t)) = [] := rfl
    constructor <;>
      · simp only [accept]
        rw [hfil, hfe]
        split <;> simp [setBucket, emptyRL]
  · intro cs key
    exact runCalls_bound cfg cs emptyRL (fun j => by simp [emptyRL]) key

/-- C8 witness: a source whose only timestamp is a full window stale is
decided like a fresh source, and a concrete call sequence leaves every
bucket within the limit. -/
theorem rate_limit_idle_and_bound_witness :
    ((accept ⟨10, 2⟩ (fun _ => [3]) "k" 100).1 = (accept ⟨10, 2⟩ emptyRL "k" 100).1
      ∧ (accept ⟨10, 2⟩ (fun _ => [3]) "k" 100).2 "k" = (accept ⟨10, 2⟩ emptyRL "k" 100).2 "k")
    ∧ ((runCalls ⟨10, 2⟩ emptyRL [("a", 1), ("a", 2), ("a", 3), ("b", 3)]) "a").length ≤ 2 :=
  ⟨(rate_limit_idle_and_bound ⟨10, 2⟩).1 (fun _ => [3]) "k" 100 (by decide),
   (rate_limit_idle_and_bound ⟨10, 2⟩).2 [("a", 1), ("a", 2), ("a", 3), ("b", 3)] "a"⟩
